import Mathlib

/-!
Shallow embedding of the statistics / prediction engine
(`statistics.rs`, `predictions.rs`, `grades.rs`) of the Somtoday-Mod
repository, together with theorems settling the frozen claims about it.

Modelling conventions:
* `f64` values are modelled by `ℚ` (exact arithmetic; the spec's claims are
  about the ideal real-valued formulas, with finiteness assumed).
* `i64` timestamps are modelled by `ℤ`; Rust's truncating `i64` division is
  `Int.tdiv`.
* A function that returns `f64::NAN` as an error marker is modelled with
  `Option ℚ` (`none` standing for the NaN result).
* `HashMap` iteration order is unspecified in Rust; `calculate_mode` is
  therefore modelled by `calculate_mode_ord`, which takes the iteration
  order of the bucket keys as an explicit parameter, and the plain
  `calculate_mode` instantiates it with one concrete order.
-/

/-- Rust `f64::clamp(lo, hi)`: `if self < min { min } else if self > max { max } else { self }`
(the `assert!(min <= max)` panic is not modelled; all call sites satisfy it). -/
def rclamp (x lo hi : ℚ) : ℚ :=
  if x < lo then lo else if x > hi then hi else x

/-- Rust `f64::round` (round half away from zero), landing in `ℤ` as the
`as i64` cast does at in-range values. -/
def rustRound (q : ℚ) : ℤ :=
  if 0 ≤ q then ⌊q + 1/2⌋ else -⌊(1/2) - q⌋

/-- Rational stand-in for `f64::sqrt`: an integer-square-root based
approximation.  It is a total computable function; none of the theorems
below depend on its particular values, only on its totality. -/
def ratSqrt (q : ℚ) : ℚ :=
  if q ≤ 0 then 0 else (Nat.sqrt (q.num.toNat * q.den) : ℚ) / (q.den : ℚ)

/-- `Grade` from `lib.rs`. -/
structure Grade where
  value : ℚ
  weight : ℚ
  subject : String
  description : String
  timestamp : ℤ
  is_passing : Bool
deriving DecidableEq

/-- `GpaScale` from `lib.rs`. -/
structure GpaScale where
  max_grade : ℚ
  passing_grade : ℚ
  gpa_max : ℚ
deriving DecidableEq

/-- `Statistics` from `lib.rs`. -/
structure Statistics where
  count : ℕ
  sum : ℚ
  mean : ℚ
  median : ℚ
  mode : List ℚ
  min : ℚ
  max : ℚ
  range : ℚ
  variance : ℚ
  std_deviation : ℚ
  percentile_25 : ℚ
  percentile_50 : ℚ
  percentile_75 : ℚ
  percentile_90 : ℚ
  iqr : ℚ
  skewness : ℚ
  kurtosis : ℚ
deriving DecidableEq

/-- `TrendResult` from `lib.rs`. -/
structure TrendResult where
  slope : ℚ
  intercept : ℚ
  r_squared : ℚ
  direction : String
  strength : String
  predicted_values : List ℚ
deriving DecidableEq

/-- `PredictionResult` from `lib.rs`. -/
structure PredictionResult where
  predicted_value : ℚ
  confidence : ℚ
  lower_bound : ℚ
  upper_bound : ℚ
  method : String
deriving DecidableEq

/-- `statistics.rs::calculate_mean`. -/
def calculate_mean (data : List ℚ) : ℚ :=
  if data = [] then 0 else data.sum / (data.length : ℚ)

/-- `statistics.rs::calculate_median` (input assumed sorted by the caller). -/
def calculate_median (sorted : List ℚ) : ℚ :=
  if sorted = [] then 0
  else
    let len := sorted.length
    if len % 2 = 0 then (sorted.getD (len / 2 - 1) 0 + sorted.getD (len / 2) 0) / 2
    else sorted.getD (len / 2) 0

/-- The fixed-point bucket key `(value * 100.0).round() as i64` used by
`calculate_mode`. -/
def modeKey (v : ℚ) : ℤ := rustRound (v * 100)

/-- The frequency of one bucket key in the data (the count accumulated in
the `HashMap` entry for that key). -/
def modeFreq (data : List ℚ) (k : ℤ) : ℕ :=
  (data.filter (fun v => modeKey v == k)).length

/-- The set of bucket keys of the data, as a duplicate-free list (the key
set of the frequency `HashMap`). -/
def modeKeys (data : List ℚ) : List ℤ := (data.map modeKey).dedup

/-- `frequency.values().max().copied().unwrap_or(0)` of `calculate_mode`. -/
def modeMaxFreq (data : List ℚ) : ℕ :=
  (((modeKeys data).map (modeFreq data)).max?).getD 0

/-- `statistics.rs::calculate_mode`, with the `HashMap` iteration order of
the bucket keys passed explicitly as `order` (Rust leaves this order
unspecified, and it varies between `HashMap` instances). -/
def calculate_mode_ord (data : List ℚ) (order : List ℤ) : List ℚ :=
  if modeMaxFreq data ≤ 1 then []
  else (order.filter (fun k => modeFreq data k == modeMaxFreq data)).map
    (fun k : ℤ => ((k : ℚ) / 100 : ℚ))

/-- `statistics.rs::calculate_mode` at one concrete iteration order. -/
def calculate_mode (data : List ℚ) : List ℚ :=
  calculate_mode_ord data (modeKeys data)

/-- `statistics.rs::calculate_variance` (sample variance, `n - 1`). -/
def calculate_variance (data : List ℚ) (mean : ℚ) : ℚ :=
  if data.length < 2 then 0
  else (data.map (fun x => (x - mean) ^ 2)).sum / ((data.length : ℚ) - 1)

/-- `statistics.rs::calculate_std_deviation`. -/
def calculate_std_deviation (data : List ℚ) : ℚ :=
  ratSqrt (calculate_variance data (calculate_mean data))

/-- The ascending sort `sorted.sort_by(|a, b| a.partial_cmp(b).unwrap())`. -/
def sortQ (data : List ℚ) : List ℚ :=
  data.mergeSort (fun a b => decide (a ≤ b))

/-- `statistics.rs::calculate_percentile_sorted`. -/
def calculate_percentile_sorted (sorted : List ℚ) (percentile : ℚ) : ℚ :=
  if sorted = [] then 0
  else
    let p := rclamp percentile 0 100
    let index : ℚ := (p / 100) * ((sorted.length : ℚ) - 1)
    let lower : ℕ := ⌊index⌋.toNat
    let upper : ℕ := ⌈index⌉.toNat
    let weight : ℚ := index - (lower : ℚ)
    if lower = upper ∨ sorted.length ≤ upper then
      sorted.getD (Min.min lower (sorted.length - 1)) 0
    else
      sorted.getD lower 0 * (1 - weight) + sorted.getD upper 0 * weight

/-- `statistics.rs::calculate_percentile`. -/
def calculate_percentile (data : List ℚ) (percentile : ℚ) : ℚ :=
  if data = [] then 0
  else calculate_percentile_sorted (sortQ data) percentile

/-- `statistics.rs::calculate_skewness`. -/
def calculate_skewness (data : List ℚ) (mean std_dev : ℚ) : ℚ :=
  if data.length < 3 ∨ std_dev = 0 then 0
  else
    let n : ℚ := (data.length : ℚ)
    (n / ((n - 1) * (n - 2))) * (data.map (fun x => ((x - mean) / std_dev) ^ 3)).sum

/-- `statistics.rs::calculate_kurtosis`. -/
def calculate_kurtosis (data : List ℚ) (mean std_dev : ℚ) : ℚ :=
  if data.length < 4 ∨ std_dev = 0 then 0
  else
    let n : ℚ := (data.length : ℚ)
    let sum_fourth := (data.map (fun x => ((x - mean) / std_dev) ^ 4)).sum
    (n * (n + 1) * sum_fourth) / ((n - 1) * (n - 2) * (n - 3)) -
      (3 * (n - 1) ^ 2) / ((n - 2) * (n - 3))

/-- `statistics.rs::calculate_statistics`. -/
def calculate_statistics (data : List ℚ) : Statistics :=
  if data = [] then ⟨0, 0, 0, 0, [], 0, 0, 0, 0, 0, 0, 0, 0, 0, 0, 0, 0⟩
  else
    let count := data.length
    let sum := data.sum
    let mean := sum / (count : ℚ)
    let sorted := sortQ data
    let median := calculate_median sorted
    let mode := calculate_mode data
    let min0 := sorted.getD 0 0
    let max0 := sorted.getD (count - 1) 0
    let range := max0 - min0
    let variance := calculate_variance data mean
    let std_deviation := ratSqrt variance
    let percentile_25 := calculate_percentile_sorted sorted 25
    let percentile_50 := calculate_percentile_sorted sorted 50
    let percentile_75 := calculate_percentile_sorted sorted 75
    let percentile_90 := calculate_percentile_sorted sorted 90
    let iqr := percentile_75 - percentile_25
    let skewness := calculate_skewness data mean std_deviation
    let kurtosis := calculate_kurtosis data mean std_deviation
    ⟨count, sum, mean, median, mode, min0, max0, range, variance, std_deviation,
      percentile_25, percentile_50, percentile_75, percentile_90, iqr, skewness, kurtosis⟩

/-- `data.iter().map(|(t, _)| *t).min().unwrap_or(0)` of `calculate_trend`. -/
def tr_min_time (data : List (ℤ × ℚ)) : ℤ :=
  ((data.map Prod.fst).min?).getD 0

/-- The timestamp-rebased series `normalized` of `calculate_trend`. -/
def tr_normalized (data : List (ℤ × ℚ)) : List (ℚ × ℚ) :=
  data.map (fun p => (((p.1 - tr_min_time data : ℤ) : ℚ), p.2))

/-- `sum_x` of `calculate_trend`. -/
def tr_sum_x (data : List (ℤ × ℚ)) : ℚ :=
  ((tr_normalized data).map (fun p => p.1)).sum

/-- `sum_y` of `calculate_trend`. -/
def tr_sum_y (data : List (ℤ × ℚ)) : ℚ :=
  ((tr_normalized data).map (fun p => p.2)).sum

/-- `sum_xy` of `calculate_trend`. -/
def tr_sum_xy (data : List (ℤ × ℚ)) : ℚ :=
  ((tr_normalized data).map (fun p => p.1 * p.2)).sum

/-- `sum_x2` of `calculate_trend`. -/
def tr_sum_x2 (data : List (ℤ × ℚ)) : ℚ :=
  ((tr_normalized data).map (fun p => p.1 * p.1)).sum

/-- `n` of `calculate_trend`. -/
def tr_n (data : List (ℤ × ℚ)) : ℚ := ((tr_normalized data).length : ℚ)

/-- `denominator` (`n * sum_x2 - sum_x * sum_x`) of `calculate_trend`. -/
def tr_denominator (data : List (ℤ × ℚ)) : ℚ :=
  tr_n data * tr_sum_x2 data - tr_sum_x data * tr_sum_x data

/-- `slope` of `calculate_trend` (regression branch). -/
def tr_slope (data : List (ℤ × ℚ)) : ℚ :=
  (tr_n data * tr_sum_xy data - tr_sum_x data * tr_sum_y data) / tr_denominator data

/-- `intercept` of `calculate_trend` (regression branch). -/
def tr_intercept (data : List (ℤ × ℚ)) : ℚ :=
  (tr_sum_y data - tr_slope data * tr_sum_x data) / tr_n data

/-- `ss_tot` of `calculate_trend`. -/
def tr_ss_tot (data : List (ℤ × ℚ)) : ℚ :=
  ((tr_normalized data).map (fun p => (p.2 - tr_sum_y data / tr_n data) ^ 2)).sum

/-- `ss_res` of `calculate_trend`. -/
def tr_ss_res (data : List (ℤ × ℚ)) : ℚ :=
  ((tr_normalized data).map
    (fun p => (p.2 - (tr_slope data * p.1 + tr_intercept data)) ^ 2)).sum

/-- `r_squared` of `calculate_trend` (regression branch). -/
def tr_r_squared (data : List (ℤ × ℚ)) : ℚ :=
  if tr_ss_tot data > 0 then 1 - tr_ss_res data / tr_ss_tot data else 0

/-- `direction` of `calculate_trend` (regression branch). -/
def tr_direction (data : List (ℤ × ℚ)) : String :=
  if |tr_slope data| < 1/1000 then "stable"
  else if tr_slope data > 0 then "improving"
  else "declining"

/-- `strength` of `calculate_trend` (regression branch). -/
def tr_strength (data : List (ℤ × ℚ)) : String :=
  if tr_r_squared data < 1/10 then "none"
  else if tr_r_squared data < 3/10 then "weak"
  else if tr_r_squared data < 6/10 then "moderate"
  else "strong"

/-- `predicted_values` of `calculate_trend` (regression branch). -/
def tr_predicted_values (data : List (ℤ × ℚ)) : List ℚ :=
  (tr_normalized data).map (fun p => tr_slope data * p.1 + tr_intercept data)

/-- `statistics.rs::calculate_trend`. -/
def calculate_trend (data : List (ℤ × ℚ)) : TrendResult :=
  if data.length < 2 then ⟨0, 0, 0, "stable", "none", []⟩
  else if |tr_denominator data| < 1/10 ^ 10 then
    ⟨0, tr_sum_y data / tr_n data, 0, "stable", "none", []⟩
  else
    ⟨tr_slope data, tr_intercept data, tr_r_squared data,
      tr_direction data, tr_strength data, tr_predicted_values data⟩

/-- The recursive tail of `calculate_ema`: each output blends the next raw
value with the previous EMA output. -/
def emaFrom (alpha prev : ℚ) : List ℚ → List ℚ
  | [] => []
  | x :: xs =>
    let e := alpha * x + (1 - alpha) * prev
    e :: emaFrom alpha e xs

/-- `statistics.rs::calculate_ema`. -/
def calculate_ema (data : List ℚ) (alpha : ℚ) : List ℚ :=
  match data with
  | [] => []
  | x :: xs => x :: emaFrom (rclamp alpha 0 1) x xs

/-- `statistics.rs::calculate_cv` (coefficient of variation). -/
def calculate_cv (data : List ℚ) : ℚ :=
  let mean := calculate_mean data
  if mean = 0 then 0
  else (calculate_std_deviation data / |mean|) * 100

/-- `statistics.rs::calculate_value_percentile`. -/
def calculate_value_percentile (data : List ℚ) (value : ℚ) : ℚ :=
  if data = [] then 0
  else
    let count_below := (data.filter (fun x => decide (x < value))).length
    let count_equal := (data.filter (fun x => decide (|x - value| < 1/1000))).length
    (((count_below : ℚ) + (1/2) * (count_equal : ℚ)) / (data.length : ℚ)) * 100

/-- `predictions.rs::predict_grade_needed`; the `f64::NAN` returned for a
non-positive `new_grade_weight` is modelled as `none`. -/
def predict_grade_needed (current_average current_total_weight target_average
    new_grade_weight : ℚ) : Option ℚ :=
  if new_grade_weight ≤ 0 then none
  else
    let total_weight := current_total_weight + new_grade_weight
    some ((target_average * total_weight - current_average * current_total_weight) /
      new_grade_weight)

/-- The timestamp sort `sorted_grades.sort_by_key(|g| g.timestamp)` of
`predict_next_grade` (a stable sort, like Rust's). -/
def sortByTimestamp (grades : List Grade) : List Grade :=
  grades.mergeSort (fun a b => decide (a.timestamp ≤ b.timestamp))

/-- `predictions.rs::predict_from_trend`. -/
def predict_from_trend (grades : List Grade) : PredictionResult :=
  let time_series := grades.map (fun g => (g.timestamp, g.value))
  let trend := calculate_trend time_series
  let last_time := ((grades.getLast?).map Grade.timestamp).getD 0
  let first_time := ((grades.head?).map Grade.timestamp).getD 0
  let avg_interval : ℤ :=
    if grades.length > 1 then Int.tdiv (last_time - first_time) ((grades.length : ℤ) - 1)
    else 86400000
  let next_time : ℚ := ((last_time - first_time : ℤ) : ℚ) + (avg_interval : ℚ)
  let predicted_value := trend.slope * next_time + trend.intercept
  ⟨rclamp predicted_value 1 10, trend.r_squared,
    max (predicted_value - 3/2) 1, min (predicted_value + 3/2) 10, "trend"⟩

/-- `predictions.rs::predict_from_ema`. -/
def predict_from_ema (grades : List Grade) : PredictionResult :=
  let values := grades.map Grade.value
  let ema := calculate_ema values (3/10)
  let predicted_value := (ema.getLast?).getD 0
  let ema_variance :=
    if ema.length > 1 then
      (ema.map (fun x => (x - ema.sum / (ema.length : ℚ)) ^ 2)).sum / ((ema.length : ℚ) - 1)
    else 1
  let confidence := rclamp (1 / (1 + ratSqrt ema_variance)) (1/10) (9/10)
  ⟨rclamp predicted_value 1 10, confidence,
    max (predicted_value - 1) 1, min (predicted_value + 1) 10, "ema"⟩

/-- `predictions.rs::predict_from_regression`. -/
def predict_from_regression (grades : List Grade) : PredictionResult :=
  if grades.length < 3 then
    let avg := (grades.map Grade.value).sum / (grades.length : ℚ)
    ⟨avg, 3/10, max (avg - 3/2) 1, min (avg + 3/2) 10, "simple_average"⟩
  else
    let weighted_sum := (grades.enum.map (fun p => p.2.value * ((p.1 : ℚ) + 1) ^ 2)).sum
    let weight_total := (grades.enum.map (fun p => ((p.1 : ℚ) + 1) ^ 2)).sum
    let predicted_value := weighted_sum / weight_total
    let values := grades.map Grade.value
    let cv := calculate_cv values
    let confidence := (100 - min cv 100) / 100
    ⟨rclamp predicted_value 1 10, rclamp confidence (1/10) (9/10),
      max (predicted_value - 3/2) 1, min (predicted_value + 3/2) 10, "weighted_regression"⟩

/-- `predictions.rs::predict_next_grade`. -/
def predict_next_grade : List Grade → PredictionResult
  | [] => ⟨0, 0, 0, 0, "none"⟩
  | [g] => ⟨g.value, 1/5, max (g.value - 1) 1, min (g.value + 1) 10, "single_value"⟩
  | g1 :: g2 :: rest =>
    let grades := g1 :: g2 :: rest
    let sorted_grades := sortByTimestamp grades
    let trend_prediction := predict_from_trend sorted_grades
    let ema_prediction := predict_from_ema sorted_grades
    let regression_prediction := predict_from_regression sorted_grades
    let trend_weight : ℚ := if 5 ≤ sorted_grades.length then 2/5 else 1/5
    let ema_weight : ℚ := 3/10
    let regression_weight := 1 - trend_weight - ema_weight
    let combined_prediction :=
      trend_prediction.predicted_value * trend_weight +
      ema_prediction.predicted_value * ema_weight +
      regression_prediction.predicted_value * regression_weight
    let avg_confidence :=
      (trend_prediction.confidence + ema_prediction.confidence +
        regression_prediction.confidence) / 3
    let values := sorted_grades.map Grade.value
    let std_dev := calculate_std_deviation values
    ⟨rclamp combined_prediction 1 10, avg_confidence,
      max (combined_prediction - 2 * std_dev) 1,
      min (combined_prediction + 2 * std_dev) 10, "ensemble"⟩

/-- `grades.rs::calculate_simple_average`. -/
def calculate_simple_average (grades : List Grade) : ℚ :=
  if grades = [] then 0
  else (grades.map Grade.value).sum / (grades.length : ℚ)

/-- `grades.rs::calculate_weighted_average`. -/
def calculate_weighted_average (grades : List Grade) : ℚ :=
  if grades = [] then 0
  else
    let total_weight := (grades.map Grade.weight).sum
    if total_weight = 0 then calculate_simple_average grades
    else (grades.map (fun g => g.value * g.weight)).sum / total_weight

/-- `grades.rs::calculate_gpa`. -/
def calculate_gpa (grades : List Grade) (scale : GpaScale) : ℚ :=
  if grades = [] then 0
  else
    let weighted_avg := calculate_weighted_average grades
    let normalized := (weighted_avg - 1) / (scale.max_grade - 1)
    rclamp (normalized * scale.gpa_max) 0 scale.gpa_max

/-- The GPA formula exactly as the spec words it (for the refinement claim
C7): `clamp(((weighted_average - 1) / (max_grade - 1)) * gpa_max, 0, gpa_max)`
with `weighted_average` the weight-weighted mean of the grade values,
falling back to the unweighted mean when the total weight is 0. -/
def gpa_spec_formula (grades : List Grade) (scale : GpaScale) : ℚ :=
  let weighted_average :=
    if (grades.map Grade.weight).sum = 0 then
      (grades.map Grade.value).sum / (grades.length : ℚ)
    else (grades.map (fun g => g.value * g.weight)).sum / (grades.map Grade.weight).sum
  rclamp (((weighted_average - 1) / (scale.max_grade - 1)) * scale.gpa_max) 0 scale.gpa_max

/-! ### Basic lemmas about the Rust primitives -/

theorem rclamp_le (x lo hi : ℚ) (h : lo ≤ hi) : rclamp x lo hi ≤ hi := by
  unfold rclamp
  split
  · exact h
  · split
    · exact le_refl _
    · exact le_of_not_lt (by assumption)

theorem le_rclamp (x lo hi : ℚ) (h : lo ≤ hi) : lo ≤ rclamp x lo hi := by
  unfold rclamp
  split
  · exact le_refl _
  · split
    · exact h
    · exact le_of_not_lt (by assumption)

theorem rclamp_eq_self {x lo hi : ℚ} (hlo : lo ≤ x) (hhi : x ≤ hi) :
    rclamp x lo hi = x := by
  unfold rclamp
  rw [if_neg (not_lt.mpr hlo), if_neg (not_lt.mpr hhi)]

/-! ### Sorting lemmas -/

theorem sortQ_sorted (data : List ℚ) : List.Sorted (· ≤ ·) (sortQ data) := by
  have h := @List.sorted_mergeSort ℚ (fun a b => decide (a ≤ b))
    (by intro a b c hab hbc; simp only [decide_eq_true_eq] at hab hbc ⊢; exact le_trans hab hbc)
    (by intro a b; simpa using le_total a b) data
  exact h.imp (by intro a b hab; simpa using hab)

theorem sortQ_perm (data : List ℚ) : (sortQ data).Perm data :=
  List.mergeSort_perm data _

theorem sortQ_length (data : List ℚ) : (sortQ data).length = data.length :=
  List.length_mergeSort data

theorem sortQ_ne_nil {data : List ℚ} (h : data ≠ []) : sortQ data ≠ [] := by
  intro e
  apply h
  have := sortQ_length data
  rw [e] at this
  exact List.length_eq_zero.mp this.symm

theorem sorted_getD_mono {s : List ℚ} (hs : List.Sorted (· ≤ ·) s) {i j : ℕ}
    (hij : i ≤ j) (hj : j < s.length) : s.getD i 0 ≤ s.getD j 0 := by
  have hi : i < s.length := lt_of_le_of_lt hij hj
  rw [List.getD_eq_getElem s 0 hi, List.getD_eq_getElem s 0 hj]
  rcases eq_or_lt_of_le hij with rfl | hlt
  · exact le_refl _
  · have := List.pairwise_iff_get.mp hs ⟨i, hi⟩ ⟨j, hj⟩ hlt
    simpa [List.get_eq_getElem] using this

/-! ### C10: predict_grade_needed -/

/-- C10: `predict_grade_needed` returns NaN (modelled as `none`) if and
only if `new_grade_weight ≤ 0`; for every positive `new_grade_weight` it
returns `(target·(current_total_weight + new_grade_weight) −
current_average·current_total_weight) / new_grade_weight`, with no
clamping to any grade range. -/
theorem predict_grade_needed_spec (ca ctw ta ngw : ℚ) :
    (predict_grade_needed ca ctw ta ngw = none ↔ ngw ≤ 0) ∧
    (0 < ngw → predict_grade_needed ca ctw ta ngw =
      some ((ta * (ctw + ngw) - ca * ctw) / ngw)) := by
  constructor
  · unfold predict_grade_needed
    split
    · simp only [true_iff]
      assumption
    · simp only [reduceCtorEq, false_iff]
      assumption
  · intro h
    unfold predict_grade_needed
    rw [if_neg (not_le.mpr h)]

/-- Witness for C10 at the spec's own worked example (average 7 over
weight 4, target 7.5 with new weight 1 requires 9.5, well inside the
range, and unclamped values above 10 are equally possible). -/
theorem predict_grade_needed_spec_witness :
    predict_grade_needed 7 4 (15/2) 1 = some (((15/2) * (4 + 1) - 7 * 4) / 1) :=
  (predict_grade_needed_spec 7 4 (15/2) 1).2 (by norm_num)

/-! ### C9: calculate_value_percentile can exceed 100 -/

/-- C9: a datum strictly below the query value but within `0.001` of it is
counted both in the strictly-below count and (halved) in the tie count, so
`calculate_value_percentile` can return more than 100: on data
`[1999/2000]` (that is, `1 - 0.0005`) with query `1` it returns `150`. -/
theorem value_percentile_gt_100 :
    calculate_value_percentile [1999/2000] 1 = 150 ∧
    (100 : ℚ) < calculate_value_percentile [1999/2000] 1 := by
  have hfil1 : List.filter (fun x => decide (x < (1 : ℚ))) [1999/2000] = [1999/2000] := by
    rw [List.filter_cons, List.filter_nil]
    norm_num
  have habs : |(1999 : ℚ)/2000 - 1| = 1/2000 := by
    rw [show (1999 : ℚ)/2000 - 1 = -(1/2000) by norm_num, abs_neg,
      abs_of_nonneg (by norm_num)]
  have hfil2 : List.filter (fun x => decide (|x - (1 : ℚ)| < 1/1000)) [1999/2000] =
      [1999/2000] := by
    rw [List.filter_cons, List.filter_nil]
    rw [show (decide (|(1999 : ℚ)/2000 - 1| < 1/1000)) = true by
      rw [decide_eq_true_eq, habs]; norm_num]
    simp
  have hval : calculate_value_percentile [1999/2000] 1 = 150 := by
    unfold calculate_value_percentile
    rw [if_neg (by simp : ([(1999 : ℚ)/2000] : List ℚ) ≠ [])]
    simp only [hfil1, hfil2, List.length_cons, List.length_nil]
    norm_num
  exact ⟨hval, by rw [hval]; norm_num⟩

/-! ### C5: degenerate design matrix in calculate_trend -/

theorem tr_sum_y_eq (data : List (ℤ × ℚ)) :
    tr_sum_y data = (data.map Prod.snd).sum := by
  unfold tr_sum_y tr_normalized
  rw [List.map_map]
  rfl

theorem tr_n_eq (data : List (ℤ × ℚ)) : tr_n data = (data.length : ℚ) := by
  unfold tr_n tr_normalized
  rw [List.length_map]

/-- C5: whenever the design-matrix denominator `n·Σx² − (Σx)²` over the
min-rebased timestamps has absolute value below `1e-10`, `calculate_trend`
on a series of at least 2 points returns slope 0, intercept equal to the
mean of the y values, R² 0, direction `"stable"` and strength `"none"`,
instead of dividing by the near-zero denominator. -/
theorem calculate_trend_degenerate (data : List (ℤ × ℚ)) (h2 : 2 ≤ data.length)
    (hden : |tr_denominator data| < 1/10 ^ 10) :
    (calculate_trend data).slope = 0 ∧
    (calculate_trend data).intercept = (data.map Prod.snd).sum / (data.length : ℚ) ∧
    (calculate_trend data).r_squared = 0 ∧
    (calculate_trend data).direction = "stable" ∧
    (calculate_trend data).strength = "none" := by
  unfold calculate_trend
  rw [if_neg (by omega), if_pos hden]
  refine ⟨rfl, ?_, rfl, rfl, rfl⟩
  rw [tr_sum_y_eq, tr_n_eq]

/-- Witness for C5: two observations with equal timestamps give denominator
exactly 0, and the intercept is the mean `(3 + 7)/2 = 5`. -/
theorem calculate_trend_degenerate_witness :
    (calculate_trend [((5 : ℤ), (3 : ℚ)), (5, 7)]).slope = 0 ∧
    (calculate_trend [((5 : ℤ), (3 : ℚ)), (5, 7)]).intercept =
      ([((5 : ℤ), (3 : ℚ)), (5, 7)].map Prod.snd).sum / (2 : ℚ) ∧
    (calculate_trend [((5 : ℤ), (3 : ℚ)), (5, 7)]).r_squared = 0 ∧
    (calculate_trend [((5 : ℤ), (3 : ℚ)), (5, 7)]).direction = "stable" ∧
    (calculate_trend [((5 : ℤ), (3 : ℚ)), (5, 7)]).strength = "none" :=
  calculate_trend_degenerate [((5 : ℤ), (3 : ℚ)), (5, 7)] (by norm_num)
    (by
      have hmin : tr_min_time [((5 : ℤ), (3 : ℚ)), (5, 7)] = 5 := by
        unfold tr_min_time
        rfl
      have hnorm : tr_normalized [((5 : ℤ), (3 : ℚ)), (5, 7)] = [(0, 3), (0, 7)] := by
        unfold tr_normalized
        rw [hmin]
        norm_num
      have : tr_denominator [((5 : ℤ), (3 : ℚ)), (5, 7)] = 0 := by
        unfold tr_denominator tr_n tr_sum_x2 tr_sum_x
        rw [hnorm]
        norm_num
      rw [this]
      norm_num)

/-! ### C7: calculate_gpa against the spec formula -/

/-- C7: for every nonempty list of grades and every scale, `calculate_gpa`
computes exactly the spec's linear rescaling
`clamp(((weighted_average − 1) / (max_grade − 1)) × gpa_max, 0, gpa_max)`,
with the weighted average falling back to the unweighted mean when the
total weight is 0. -/
theorem calculate_gpa_spec (grades : List Grade) (scale : GpaScale)
    (h : grades ≠ []) :
    calculate_gpa grades scale = gpa_spec_formula grades scale := by
  unfold calculate_gpa gpa_spec_formula calculate_weighted_average calculate_simple_average
  rw [if_neg h, if_neg h, if_neg h]

/-- Witness for C7 at a concrete two-grade list and the default scale. -/
theorem calculate_gpa_spec_witness :
    calculate_gpa [⟨8, 1, "m", "d", 0, true⟩, ⟨7, 2, "m", "d", 1, true⟩] ⟨10, 11/2, 4⟩ =
      gpa_spec_formula [⟨8, 1, "m", "d", 0, true⟩, ⟨7, 2, "m", "d", 1, true⟩] ⟨10, 11/2, 4⟩ :=
  calculate_gpa_spec _ _ (by simp)

/-! ### C6: mode list and HashMap iteration order -/

/-- C6 (amended): the engine's functions are pure, so repeated invocation
on identical input is deterministic except for the `HashMap` iteration
order behind the mode list; any two iteration orders of the same bucket
keys yield the same mode list up to permutation (the same multiset of
modes), though not necessarily in the same order. -/
theorem calculate_mode_ord_perm (data : List ℚ) (o1 o2 : List ℤ)
    (h : o1.Perm o2) :
    (calculate_mode_ord data o1).Perm (calculate_mode_ord data o2) := by
  unfold calculate_mode_ord
  split
  · exact List.Perm.refl _
  · exact (h.filter _).map _

/-- Witness for the amended C6 at concrete data and two bucket orders. -/
theorem calculate_mode_ord_perm_witness :
    (calculate_mode_ord [1, 1, 2, 2] [100, 200]).Perm
      (calculate_mode_ord [1, 1, 2, 2] [200, 100]) :=
  calculate_mode_ord_perm [1, 1, 2, 2] [100, 200] [200, 100] (by decide)

/-- Counterexample to C6 as stated: on data `[1, 1, 2, 2]` the bucket
map has exactly the keys `100` and `200`, both with frequency 2; the two
possible iteration orders of those keys are permutations of each other,
yet they produce different mode lists (`[1, 2]` versus `[2, 1]`), so the
output is not bit-identical across invocations whose `HashMap`s iterate
in different orders. -/
theorem calculate_mode_order_dependent :
    modeKeys [1, 1, 2, 2] = [100, 200] ∧
    List.Perm [(100 : ℤ), 200] [200, 100] ∧
    calculate_mode_ord [1, 1, 2, 2] [100, 200] ≠
      calculate_mode_ord [1, 1, 2, 2] [200, 100] := by
  have hk1 : modeKey 1 = 100 := by norm_num [modeKey, rustRound]
  have hk2 : modeKey 2 = 200 := by norm_num [modeKey, rustRound]
  have hkeys : modeKeys [1, 1, 2, 2] = [100, 200] := by
    unfold modeKeys
    rw [List.map_cons, List.map_cons, List.map_cons, List.map_cons, List.map_nil,
      hk1, hk2]
    decide
  have hfreq100 : modeFreq [(1 : ℚ), 1, 2, 2] 100 = 2 := by
    simp [modeFreq, List.filter_cons, hk1, hk2]
  have hfreq200 : modeFreq [(1 : ℚ), 1, 2, 2] 200 = 2 := by
    simp [modeFreq, List.filter_cons, hk1, hk2]
  have hmax : modeMaxFreq [(1 : ℚ), 1, 2, 2] = 2 := by
    unfold modeMaxFreq
    rw [hkeys, List.map_cons, List.map_cons, List.map_nil, hfreq100, hfreq200]
    decide
  refine ⟨hkeys, by decide, ?_⟩
  intro heq
  unfold calculate_mode_ord at heq
  rw [if_neg (by rw [hmax]; decide), if_neg (by rw [hmax]; decide)] at heq
  have hf1 : List.filter
      (fun k => modeFreq [(1 : ℚ), 1, 2, 2] k == modeMaxFreq [(1 : ℚ), 1, 2, 2])
      [100, 200] = [100, 200] := by
    simp [List.filter_cons, hfreq100, hfreq200, hmax]
  have hf2 : List.filter
      (fun k => modeFreq [(1 : ℚ), 1, 2, 2] k == modeMaxFreq [(1 : ℚ), 1, 2, 2])
      [200, 100] = [200, 100] := by
    simp [List.filter_cons, hfreq100, hfreq200, hmax]
  rw [hf1, hf2] at heq
  simp only [List.map_cons, List.map_nil, List.cons.injEq] at heq
  have h1 : ((100 : ℤ) : ℚ) / 100 = ((200 : ℤ) : ℚ) / 100 := heq.1
  norm_num at h1

/-! ### C2: ensemble blending weights and confidence mean -/

/-- C2: for at least 2 grades, the ensemble's point estimate is the
(clamped) weighted sum `w_t·trend + 0.3·ema + (1 − w_t − 0.3)·regression`
with `w_t = 0.4` for at least 5 grades and `0.2` otherwise, and the
combined confidence is the unweighted arithmetic mean (sum divided by 3)
of the three sub-method confidences rather than the blend-weighted mean. -/
theorem predict_next_grade_combination (grades : List Grade)
    (h : 2 ≤ grades.length) :
    (predict_next_grade grades).predicted_value =
      rclamp ((if 5 ≤ grades.length then (2 : ℚ)/5 else 1/5) *
          (predict_from_trend (sortByTimestamp grades)).predicted_value +
        (3/10) * (predict_from_ema (sortByTimestamp grades)).predicted_value +
        (1 - (if 5 ≤ grades.length then (2 : ℚ)/5 else 1/5) - 3/10) *
          (predict_from_regression (sortByTimestamp grades)).predicted_value) 1 10 ∧
    (predict_next_grade grades).confidence =
      ((predict_from_trend (sortByTimestamp grades)).confidence +
        (predict_from_ema (sortByTimestamp grades)).confidence +
        (predict_from_regression (sortByTimestamp grades)).confidence) / 3 := by
  match grades, h with
  | g1 :: g2 :: rest, _ =>
    have hlen : (sortByTimestamp (g1 :: g2 :: rest)).length =
        (g1 :: g2 :: rest).length := List.length_mergeSort _
    simp only [predict_next_grade]
    rw [hlen]
    refine ⟨?_, by trivial⟩
    congr 1
    ring

/-- Witness for C2 at a concrete two-grade list. -/
theorem predict_next_grade_combination_witness :
    (predict_next_grade [⟨7, 1, "m", "a", 0, true⟩, ⟨8, 1, "m", "b", 1, true⟩]).predicted_value =
      rclamp ((if 5 ≤ ([⟨7, 1, "m", "a", 0, true⟩, ⟨8, 1, "m", "b", 1, true⟩] : List Grade).length then (2 : ℚ)/5 else 1/5) *
          (predict_from_trend (sortByTimestamp [⟨7, 1, "m", "a", 0, true⟩, ⟨8, 1, "m", "b", 1, true⟩])).predicted_value +
        (3/10) * (predict_from_ema (sortByTimestamp [⟨7, 1, "m", "a", 0, true⟩, ⟨8, 1, "m", "b", 1, true⟩])).predicted_value +
        (1 - (if 5 ≤ ([⟨7, 1, "m", "a", 0, true⟩, ⟨8, 1, "m", "b", 1, true⟩] : List Grade).length then (2 : ℚ)/5 else 1/5) - 3/10) *
          (predict_from_regression (sortByTimestamp [⟨7, 1, "m", "a", 0, true⟩, ⟨8, 1, "m", "b", 1, true⟩])).predicted_value) 1 10 ∧
    (predict_next_grade [⟨7, 1, "m", "a", 0, true⟩, ⟨8, 1, "m", "b", 1, true⟩]).confidence =
      ((predict_from_trend (sortByTimestamp [⟨7, 1, "m", "a", 0, true⟩, ⟨8, 1, "m", "b", 1, true⟩])).confidence +
        (predict_from_ema (sortByTimestamp [⟨7, 1, "m", "a", 0, true⟩, ⟨8, 1, "m", "b", 1, true⟩])).confidence +
        (predict_from_regression (sortByTimestamp [⟨7, 1, "m", "a", 0, true⟩, ⟨8, 1, "m", "b", 1, true⟩])).confidence) / 3 :=
  predict_next_grade_combination [⟨7, 1, "m", "a", 0, true⟩, ⟨8, 1, "m", "b", 1, true⟩]
    (by norm_num)

/-! ### C4: percentile at 50 agrees with the direct median -/

/-- C4: for every list of reals, `calculate_percentile` at percentile 50
(linear interpolation at fractional index `0.5·(n−1)`) returns the same
value as `calculate_median` applied to the sorted copy of the list (the
direct even/odd median formula). -/
theorem calculate_percentile_50_eq_median (data : List ℚ) :
    calculate_percentile data 50 = calculate_median (sortQ data) := by
  by_cases h : data = []
  · subst h
    simp [calculate_percentile, calculate_median, sortQ, List.mergeSort_nil]
  · have hsne : sortQ data ≠ [] := sortQ_ne_nil h
    unfold calculate_percentile
    rw [if_neg h]
    have hn : 1 ≤ (sortQ data).length := List.length_pos.mpr hsne
    simp only [calculate_percentile_sorted, calculate_median, if_neg hsne]
    have hcl : rclamp 50 0 100 = (50 : ℚ) := rclamp_eq_self (by norm_num) (by norm_num)
    rw [hcl]
    set s := sortQ data with hs
    set n := s.length with hndef
    rcases Nat.even_or_odd n with ⟨k, hk⟩ | ⟨k, hk⟩
    · -- even length: n = k + k with k ≥ 1
      have hk1 : 1 ≤ k := by omega
      have hidx : (50 : ℚ)/100 * ((n : ℚ) - 1) = ((k : ℚ) + (k : ℚ) - 1)/2 := by
        rw [hk]
        push_cast
        ring
      rw [hidx]
      have hfl : ⌊(((k : ℚ) + (k : ℚ)) - 1)/2⌋ = (k : ℤ) - 1 := by
        rw [Int.floor_eq_iff]
        constructor
        · push_cast
          linarith
        · push_cast
          linarith
      have hce : ⌈(((k : ℚ) + (k : ℚ)) - 1)/2⌉ = (k : ℤ) := by
        rw [Int.ceil_eq_iff]
        constructor
        · push_cast
          linarith [hk1]
        · push_cast
          linarith [hk1]
      have hlow : (⌊(((k : ℚ) + (k : ℚ)) - 1)/2⌋).toNat = k - 1 := by
        rw [hfl]
        omega
      have hup : (⌈(((k : ℚ) + (k : ℚ)) - 1)/2⌉).toNat = k := by
        rw [hce]
        omega
      rw [hlow, hup]
      rw [if_neg (by omega : ¬ (k - 1 = k ∨ n ≤ k))]
      rw [if_pos (by omega : n % 2 = 0)]
      have hnd2 : n / 2 = k := by omega
      rw [hnd2]
      have hcast : ((k - 1 : ℕ) : ℚ) = (k : ℚ) - 1 := by
        push_cast [hk1]
        ring
      rw [hcast]
      ring
    · -- odd length: n = 2k + 1
      have hidx : (50 : ℚ)/100 * ((n : ℚ) - 1) = (k : ℚ) := by
        rw [hk]
        push_cast
        ring
      rw [hidx]
      rw [Int.floor_natCast, Int.ceil_natCast, Int.toNat_natCast]
      rw [if_pos (Or.inl rfl)]
      rw [if_neg (by omega : ¬ n % 2 = 0)]
      have hnd2 : n / 2 = k := by omega
      rw [hnd2]
      have hmin : Min.min k (n - 1) = k := by omega
      rw [hmin]

/-! ### C3: percentile ordering -/

/-- The interpolation kernel of `calculate_percentile_sorted`, abstracted
over the fractional index `(p/100)·(n−1)` (proof helper). -/
def interpIdx (s : List ℚ) (idx : ℚ) : ℚ :=
  let lower : ℕ := ⌊idx⌋.toNat
  let upper : ℕ := ⌈idx⌉.toNat
  let weight : ℚ := idx - (lower : ℚ)
  if lower = upper ∨ s.length ≤ upper then s.getD (Min.min lower (s.length - 1)) 0
  else s.getD lower 0 * (1 - weight) + s.getD upper 0 * weight

theorem cps_eq_interpIdx (s : List ℚ) (hne : s ≠ []) (P : ℚ) :
    calculate_percentile_sorted s P =
      interpIdx s (rclamp P 0 100 / 100 * ((s.length : ℚ) - 1)) := by
  simp only [calculate_percentile_sorted, interpIdx, if_neg hne]

theorem interpIdx_ge {s : List ℚ} (hs : List.Sorted (· ≤ ·) s) (hn : 1 ≤ s.length)
    {idx : ℚ} (h0 : 0 ≤ idx) (h1 : idx ≤ (s.length : ℚ) - 1) :
    s.getD ⌊idx⌋.toNat 0 ≤ interpIdx s idx := by
  have hfl0 : 0 ≤ ⌊idx⌋ := Int.floor_nonneg.mpr h0
  have hce0 : 0 ≤ ⌈idx⌉ := le_trans hfl0 (Int.floor_le_ceil idx)
  have hceZ : ⌈idx⌉ ≤ (s.length : ℤ) - 1 := by
    rw [Int.ceil_le]
    push_cast
    exact h1
  have hupN : ⌈idx⌉.toNat ≤ s.length - 1 := by omega
  have hlowN : ⌊idx⌋.toNat ≤ ⌈idx⌉.toNat := by
    have := Int.floor_le_ceil idx
    omega
  have hupLt : ⌈idx⌉.toNat < s.length := by omega
  have hlcast : ((⌊idx⌋.toNat : ℕ) : ℚ) = (⌊idx⌋ : ℚ) := by
    exact_mod_cast Int.toNat_of_nonneg hfl0
  have hw0 : 0 ≤ idx - ((⌊idx⌋.toNat : ℕ) : ℚ) := by
    rw [hlcast]
    have := Int.floor_le idx
    linarith
  have hw1 : idx - ((⌊idx⌋.toNat : ℕ) : ℚ) ≤ 1 := by
    rw [hlcast]
    have := Int.lt_floor_add_one idx
    push_cast at this
    linarith
  unfold interpIdx
  by_cases hcase : ⌊idx⌋.toNat = ⌈idx⌉.toNat
  · rw [if_pos (Or.inl hcase)]
    rw [Nat.min_eq_left (by omega)]
  · rw [if_neg (by omega)]
    have hab : s.getD ⌊idx⌋.toNat 0 ≤ s.getD ⌈idx⌉.toNat 0 :=
      sorted_getD_mono hs hlowN hupLt
    nlinarith [mul_nonneg hw0 (sub_nonneg.mpr hab)]

theorem interpIdx_le {s : List ℚ} (hs : List.Sorted (· ≤ ·) s) (hn : 1 ≤ s.length)
    {idx : ℚ} (h0 : 0 ≤ idx) (h1 : idx ≤ (s.length : ℚ) - 1) :
    interpIdx s idx ≤ s.getD ⌈idx⌉.toNat 0 := by
  have hfl0 : 0 ≤ ⌊idx⌋ := Int.floor_nonneg.mpr h0
  have hce0 : 0 ≤ ⌈idx⌉ := le_trans hfl0 (Int.floor_le_ceil idx)
  have hceZ : ⌈idx⌉ ≤ (s.length : ℤ) - 1 := by
    rw [Int.ceil_le]
    push_cast
    exact h1
  have hupN : ⌈idx⌉.toNat ≤ s.length - 1 := by omega
  have hlowN : ⌊idx⌋.toNat ≤ ⌈idx⌉.toNat := by
    have := Int.floor_le_ceil idx
    omega
  have hupLt : ⌈idx⌉.toNat < s.length := by omega
  have hlcast : ((⌊idx⌋.toNat : ℕ) : ℚ) = (⌊idx⌋ : ℚ) := by
    exact_mod_cast Int.toNat_of_nonneg hfl0
  have hw0 : 0 ≤ idx - ((⌊idx⌋.toNat : ℕ) : ℚ) := by
    rw [hlcast]
    have := Int.floor_le idx
    linarith
  have hw1 : idx - ((⌊idx⌋.toNat : ℕ) : ℚ) ≤ 1 := by
    rw [hlcast]
    have := Int.lt_floor_add_one idx
    push_cast at this
    linarith
  unfold interpIdx
  by_cases hcase : ⌊idx⌋.toNat = ⌈idx⌉.toNat
  · rw [if_pos (Or.inl hcase)]
    rw [Nat.min_eq_left (by omega), hcase]
  · rw [if_neg (by omega)]
    have hab : s.getD ⌊idx⌋.toNat 0 ≤ s.getD ⌈idx⌉.toNat 0 :=
      sorted_getD_mono hs hlowN hupLt
    nlinarith [mul_nonneg (sub_nonneg.mpr hw1) (sub_nonneg.mpr hab)]

theorem interpIdx_mono {s : List ℚ} (hs : List.Sorted (· ≤ ·) s) (hn : 1 ≤ s.length)
    {i1 i2 : ℚ} (h0 : 0 ≤ i1) (h12 : i1 ≤ i2) (h2 : i2 ≤ (s.length : ℚ) - 1) :
    interpIdx s i1 ≤ interpIdx s i2 := by
  have h01 : 0 ≤ i2 := le_trans h0 h12
  have h1top : i1 ≤ (s.length : ℚ) - 1 := le_trans h12 h2
  have hfl1 : 0 ≤ ⌊i1⌋ := Int.floor_nonneg.mpr h0
  have hfl2 : 0 ≤ ⌊i2⌋ := Int.floor_nonneg.mpr h01
  have hce1 : 0 ≤ ⌈i1⌉ := le_trans hfl1 (Int.floor_le_ceil i1)
  have hce2 : 0 ≤ ⌈i2⌉ := le_trans hfl2 (Int.floor_le_ceil i2)
  have hceZ2 : ⌈i2⌉ ≤ (s.length : ℤ) - 1 := by
    rw [Int.ceil_le]
    push_cast
    exact h2
  by_cases hcase : ⌈i1⌉.toNat ≤ ⌊i2⌋.toNat
  · have hfl2lt : ⌊i2⌋.toNat < s.length := by
      have := Int.floor_le_ceil i2
      omega
    calc interpIdx s i1 ≤ s.getD ⌈i1⌉.toNat 0 := interpIdx_le hs hn h0 h1top
      _ ≤ s.getD ⌊i2⌋.toNat 0 := sorted_getD_mono hs hcase hfl2lt
      _ ≤ interpIdx s i2 := interpIdx_ge hs hn h01 h2
  · -- the two indices share the same floor L and the same ceiling L + 1
    have hflle : ⌊i1⌋ ≤ ⌊i2⌋ := Int.floor_le_floor h12
    have hc1 : ⌈i1⌉ ≤ ⌊i1⌋ + 1 := Int.ceil_le_floor_add_one i1
    have hgt : ⌊i2⌋ < ⌈i1⌉ := by omega
    have hL : ⌊i1⌋ = ⌊i2⌋ := by omega
    have hU1 : ⌈i1⌉ = ⌊i1⌋ + 1 := by omega
    have hcele : ⌈i1⌉ ≤ ⌈i2⌉ := Int.ceil_le_ceil h12
    have hc2 : ⌈i2⌉ ≤ ⌊i2⌋ + 1 := Int.ceil_le_floor_add_one i2
    have hU2 : ⌈i2⌉ = ⌊i2⌋ + 1 := by omega
    have hceZ1 : ⌈i1⌉ ≤ (s.length : ℤ) - 1 := by omega
    have hupLt : ⌈i1⌉.toNat < s.length := by omega
    have hlowN : ⌊i1⌋.toNat ≤ ⌈i1⌉.toNat := by
      have := Int.floor_le_ceil i1
      omega
    have hab : s.getD ⌊i1⌋.toNat 0 ≤ s.getD ⌈i1⌉.toNat 0 :=
      sorted_getD_mono hs hlowN hupLt
    have hne1 : ¬ (⌊i1⌋.toNat = ⌈i1⌉.toNat ∨ s.length ≤ ⌈i1⌉.toNat) := by omega
    have hne2 : ¬ (⌊i2⌋.toNat = ⌈i2⌉.toNat ∨ s.length ≤ ⌈i2⌉.toNat) := by omega
    have hfleq : ⌊i1⌋.toNat = ⌊i2⌋.toNat := by omega
    have hceeq : ⌈i1⌉.toNat = ⌈i2⌉.toNat := by omega
    have hlcast : ((⌊i1⌋.toNat : ℕ) : ℚ) = (⌊i1⌋ : ℚ) := by
      exact_mod_cast Int.toNat_of_nonneg hfl1
    unfold interpIdx
    rw [if_neg hne1, if_neg hne2, ← hfleq, ← hceeq]
    have hwle : i1 - ((⌊i1⌋.toNat : ℕ) : ℚ) ≤ i2 - ((⌊i1⌋.toNat : ℕ) : ℚ) := by
      linarith
    nlinarith [mul_nonneg (sub_nonneg.mpr hwle) (sub_nonneg.mpr hab)]

theorem cps_mono {s : List ℚ} (hs : List.Sorted (· ≤ ·) s) (hne : s ≠ [])
    {p q : ℚ} (hp : 0 ≤ p) (hpq : p ≤ q) (hq : q ≤ 100) :
    calculate_percentile_sorted s p ≤ calculate_percentile_sorted s q := by
  have hn : 1 ≤ s.length := List.length_pos.mpr hne
  have hn1 : (0 : ℚ) ≤ (s.length : ℚ) - 1 := by
    have : (1 : ℚ) ≤ (s.length : ℚ) := by exact_mod_cast hn
    linarith
  rw [cps_eq_interpIdx s hne p, cps_eq_interpIdx s hne q,
    rclamp_eq_self hp (le_trans hpq hq), rclamp_eq_self (le_trans hp hpq) hq]
  apply interpIdx_mono hs hn
  · exact mul_nonneg (by linarith) hn1
  · exact mul_le_mul_of_nonneg_right (by linarith) hn1
  · calc q / 100 * ((s.length : ℚ) - 1) ≤ 1 * ((s.length : ℚ) - 1) :=
        mul_le_mul_of_nonneg_right (by linarith) hn1
      _ = (s.length : ℚ) - 1 := one_mul _

/-- C3: for every nonempty list, the percentile fields of the
`Statistics` returned by `calculate_statistics` are in order:
`p25 ≤ p50 ≤ p75 ≤ p90`. -/
theorem calculate_statistics_percentiles_mono (data : List ℚ) (h : data ≠ []) :
    (calculate_statistics data).percentile_25 ≤ (calculate_statistics data).percentile_50 ∧
    (calculate_statistics data).percentile_50 ≤ (calculate_statistics data).percentile_75 ∧
    (calculate_statistics data).percentile_75 ≤ (calculate_statistics data).percentile_90 := by
  have hs := sortQ_sorted data
  have hsne := sortQ_ne_nil h
  unfold calculate_statistics
  rw [if_neg h]
  exact ⟨cps_mono hs hsne (by norm_num) (by norm_num) (by norm_num),
    cps_mono hs hsne (by norm_num) (by norm_num) (by norm_num),
    cps_mono hs hsne (by norm_num) (by norm_num) (by norm_num)⟩

/-- Witness for C3 at a concrete four-element list. -/
theorem calculate_statistics_percentiles_mono_witness :
    (calculate_statistics [4, 1, 3, 2]).percentile_25 ≤
      (calculate_statistics [4, 1, 3, 2]).percentile_50 ∧
    (calculate_statistics [4, 1, 3, 2]).percentile_50 ≤
      (calculate_statistics [4, 1, 3, 2]).percentile_75 ∧
    (calculate_statistics [4, 1, 3, 2]).percentile_75 ≤
      (calculate_statistics [4, 1, 3, 2]).percentile_90 :=
  calculate_statistics_percentiles_mono [4, 1, 3, 2] (by simp)

/-! ### Least-squares facts needed for the ensemble confidence bound -/

theorem sum_sq_list_nonneg (l : List (ℚ × ℚ)) (f : ℚ × ℚ → ℚ) :
    0 ≤ (l.map (fun p => (f p) ^ 2)).sum := by
  apply List.sum_nonneg
  intro x hx
  obtain ⟨p, hp, rfl⟩ := List.mem_map.1 hx
  positivity

theorem sq_sum_le_card_mul (l : List ℚ) :
    (l.sum) ^ 2 ≤ (l.length : ℚ) * (l.map (fun x => x * x)).sum := by
  induction l with
  | nil => simp
  | cons x t ih =>
    simp only [List.sum_cons, List.map_cons, List.length_cons]
    have hQ : 0 ≤ (t.map (fun x => x * x)).sum := by
      apply List.sum_nonneg
      intro y hy
      obtain ⟨z, hz, rfl⟩ := List.mem_map.1 hy
      exact mul_self_nonneg z
    rcases t with _ | ⟨y, s⟩
    · simp only [List.sum_nil, List.map_nil, List.length_nil, add_zero]
      push_cast
      nlinarith [sq_nonneg x]
    · have hn : (1 : ℚ) ≤ ((y :: s).length : ℚ) := by
        have : 1 ≤ (y :: s).length := by simp
        exact_mod_cast this
      push_cast
      nlinarith [ih, sq_nonneg (((y :: s).length : ℚ) * x - (y :: s).sum), hQ, hn]

theorem tr_denominator_nonneg (data : List (ℤ × ℚ)) : 0 ≤ tr_denominator data := by
  have h := sq_sum_le_card_mul ((tr_normalized data).map (fun p => p.1))
  unfold tr_denominator tr_n tr_sum_x2 tr_sum_x
  rw [List.length_map, List.map_map] at h
  have he : ((tr_normalized data).map ((fun x => x * x) ∘ fun p => p.1)) =
      ((tr_normalized data).map (fun p => p.1 * p.1)) := rfl
  rw [he] at h
  linarith

theorem sum_sq_affine (l : List (ℚ × ℚ)) (b a : ℚ) :
    (l.map (fun p => (p.2 - (b * p.1 + a)) ^ 2)).sum =
      (l.map (fun p => p.2 * p.2)).sum
      - 2 * b * (l.map (fun p => p.1 * p.2)).sum
      - 2 * a * (l.map (fun p => p.2)).sum
      + b ^ 2 * (l.map (fun p => p.1 * p.1)).sum
      + 2 * a * b * (l.map (fun p => p.1)).sum
      + (l.length : ℚ) * a ^ 2 := by
  induction l with
  | nil => simp
  | cons p t ih =>
    simp only [List.map_cons, List.sum_cons, List.length_cons]
    rw [ih]
    push_cast
    ring

theorem sum_sq_const (l : List (ℚ × ℚ)) (m : ℚ) :
    (l.map (fun p => (p.2 - m) ^ 2)).sum =
      (l.map (fun p => p.2 * p.2)).sum
      - 2 * m * (l.map (fun p => p.2)).sum
      + (l.length : ℚ) * m ^ 2 := by
  induction l with
  | nil => simp
  | cons p t ih =>
    simp only [List.map_cons, List.sum_cons, List.length_cons]
    rw [ih]
    push_cast
    ring

theorem tr_gain (data : List (ℤ × ℚ)) (hn : tr_n data ≠ 0)
    (hD : tr_denominator data ≠ 0) :
    tr_ss_tot data - tr_ss_res data =
      (tr_n data * tr_sum_xy data - tr_sum_x data * tr_sum_y data) ^ 2 /
        (tr_n data * tr_denominator data) := by
  have e1 := sum_sq_affine (tr_normalized data) (tr_slope data) (tr_intercept data)
  have e2 := sum_sq_const (tr_normalized data) (tr_sum_y data / tr_n data)
  have hres : tr_ss_res data =
      ((tr_normalized data).map (fun p => p.2 * p.2)).sum
      - 2 * tr_slope data * tr_sum_xy data
      - 2 * tr_intercept data * tr_sum_y data
      + tr_slope data ^ 2 * tr_sum_x2 data
      + 2 * tr_intercept data * tr_slope data * tr_sum_x data
      + tr_n data * tr_intercept data ^ 2 := by
    unfold tr_ss_res tr_sum_xy tr_sum_y tr_sum_x2 tr_sum_x tr_n
    exact e1
  have htot : tr_ss_tot data =
      ((tr_normalized data).map (fun p => p.2 * p.2)).sum
      - 2 * (tr_sum_y data / tr_n data) * tr_sum_y data
      + tr_n data * (tr_sum_y data / tr_n data) ^ 2 := by
    unfold tr_ss_tot tr_sum_y tr_n
    exact e2
  rw [hres, htot]
  have hb : tr_slope data =
      (tr_n data * tr_sum_xy data - tr_sum_x data * tr_sum_y data) / tr_denominator data := rfl
  have ha : tr_intercept data =
      (tr_sum_y data - tr_slope data * tr_sum_x data) / tr_n data := rfl
  rw [ha, hb]
  have hDu : tr_denominator data =
      tr_n data * tr_sum_x2 data - tr_sum_x data * tr_sum_x data := rfl
  rw [hDu] at hD ⊢
  field_simp
  ring

theorem calculate_trend_r_squared_mem (data : List (ℤ × ℚ)) :
    0 ≤ (calculate_trend data).r_squared ∧ (calculate_trend data).r_squared ≤ 1 := by
  unfold calculate_trend
  split
  · exact ⟨le_refl _, by norm_num⟩
  · split
    · exact ⟨le_refl _, by norm_num⟩
    · rename_i hlen hden
      have h2 : 2 ≤ data.length := by omega
      have hDnn : 0 ≤ tr_denominator data := tr_denominator_nonneg data
      have hDne : tr_denominator data ≠ 0 := by
        intro e
        apply hden
        rw [e]
        norm_num
      have hDpos : 0 < tr_denominator data := lt_of_le_of_ne hDnn (Ne.symm hDne)
      have hnpos : 0 < tr_n data := by
        unfold tr_n tr_normalized
        rw [List.length_map]
        have : (2 : ℚ) ≤ (data.length : ℚ) := by exact_mod_cast h2
        linarith
      have hres0 : 0 ≤ tr_ss_res data := by
        unfold tr_ss_res
        exact sum_sq_list_nonneg _
          (fun p => p.2 - (tr_slope data * p.1 + tr_intercept data))
      have hgain : 0 ≤ tr_ss_tot data - tr_ss_res data := by
        rw [tr_gain data (ne_of_gt hnpos) hDne]
        positivity
      show 0 ≤ tr_r_squared data ∧ tr_r_squared data ≤ 1
      unfold tr_r_squared
      split
      · rename_i htot
        constructor
        · have hdiv : tr_ss_res data / tr_ss_tot data ≤ 1 := by
            rw [div_le_one htot]
            linarith
          linarith
        · have hdiv : 0 ≤ tr_ss_res data / tr_ss_tot data :=
            div_nonneg hres0 (le_of_lt htot)
          linarith
      · exact ⟨le_refl _, by norm_num⟩

/-! ### C1: ensemble prediction range -/

theorem predict_from_trend_confidence_mem (gs : List Grade) :
    0 ≤ (predict_from_trend gs).confidence ∧ (predict_from_trend gs).confidence ≤ 1 := by
  have h := calculate_trend_r_squared_mem (gs.map (fun g => (g.timestamp, g.value)))
  unfold predict_from_trend
  exact h

theorem predict_from_ema_confidence_mem (gs : List Grade) :
    1/10 ≤ (predict_from_ema gs).confidence ∧ (predict_from_ema gs).confidence ≤ 9/10 := by
  unfold predict_from_ema
  exact ⟨le_rclamp _ _ _ (by norm_num), rclamp_le _ _ _ (by norm_num)⟩

theorem predict_from_regression_confidence_mem (gs : List Grade) :
    1/10 ≤ (predict_from_regression gs).confidence ∧
    (predict_from_regression gs).confidence ≤ 9/10 := by
  unfold predict_from_regression
  split
  · exact ⟨by norm_num, by norm_num⟩
  · exact ⟨le_rclamp _ _ _ (by norm_num), rclamp_le _ _ _ (by norm_num)⟩

/-- C1 (amended): for every nonempty list of grades the ensemble's
confidence lies in `[0, 1]` unconditionally (the single-grade path fixes
it at 0.2, the ensemble path averages three bounded sub-confidences);
the predicted value lies in `[1, 10]` whenever the list has at least 2
grades (the ensemble clamps), and in the single-grade case whenever that
grade's value lies in `[1, 10]` — the single-grade path returns the grade
value itself, unclamped. -/
theorem predict_next_grade_range (grades : List Grade) (hne : grades ≠ []) :
    (0 ≤ (predict_next_grade grades).confidence ∧
      (predict_next_grade grades).confidence ≤ 1) ∧
    ((2 ≤ grades.length ∨ ∀ g ∈ grades, 1 ≤ g.value ∧ g.value ≤ 10) →
      1 ≤ (predict_next_grade grades).predicted_value ∧
      (predict_next_grade grades).predicted_value ≤ 10) := by
  match grades with
  | [] => exact absurd rfl hne
  | [g] =>
    constructor
    · simp only [predict_next_grade]
      exact ⟨by norm_num, by norm_num⟩
    · intro hv
      have hg : 1 ≤ g.value ∧ g.value ≤ 10 := by
        rcases hv with h2 | hall
        · simp at h2
        · exact hall g (by simp)
      simp only [predict_next_grade]
      exact ⟨hg.1, hg.2⟩
  | g1 :: g2 :: rest =>
    constructor
    · simp only [predict_next_grade]
      have ht := predict_from_trend_confidence_mem (sortByTimestamp (g1 :: g2 :: rest))
      have he := predict_from_ema_confidence_mem (sortByTimestamp (g1 :: g2 :: rest))
      have hr := predict_from_regression_confidence_mem (sortByTimestamp (g1 :: g2 :: rest))
      constructor
      · linarith [ht.1, he.1, hr.1]
      · linarith [ht.2, he.2, hr.2]
    · intro _
      simp only [predict_next_grade]
      exact ⟨le_rclamp _ _ _ (by norm_num), rclamp_le _ _ _ (by norm_num)⟩

/-- Witness for the amended C1: the confidence bound at a concrete
single grade whose value 12 is out of range (the code returns confidence
0.2 there), and both bounds at a concrete in-range single grade. -/
theorem predict_next_grade_range_witness :
    (0 ≤ (predict_next_grade [⟨12, 1, "m", "d", 0, true⟩]).confidence ∧
      (predict_next_grade [⟨12, 1, "m", "d", 0, true⟩]).confidence ≤ 1) ∧
    (1 ≤ (predict_next_grade [⟨7, 1, "m", "d", 0, true⟩]).predicted_value ∧
      (predict_next_grade [⟨7, 1, "m", "d", 0, true⟩]).predicted_value ≤ 10) :=
  ⟨(predict_next_grade_range [⟨12, 1, "m", "d", 0, true⟩] (by simp)).1,
    (predict_next_grade_range [⟨7, 1, "m", "d", 0, true⟩] (by simp)).2
      (Or.inr (by
        intro g hg
        rw [List.mem_singleton] at hg
        subst hg
        exact ⟨by norm_num, by norm_num⟩))⟩

/-- Counterexample to C1 as stated: the single-grade path tags its result
`"single_value"` but returns the grade value itself without clamping, so
a finite out-of-range grade (here value 0) yields a predicted value below
1. -/
theorem predict_next_grade_single_unclamped :
    (predict_next_grade [⟨0, 1, "m", "d", 0, false⟩]).method = "single_value" ∧
    (predict_next_grade [⟨0, 1, "m", "d", 0, false⟩]).predicted_value < 1 := by
  constructor
  · rfl
  · show (0 : ℚ) < 1
    norm_num

/-! ### C8: calculate_trend under permutation of the input -/

theorem min?_perm_int {l1 l2 : List ℤ} (h : l1.Perm l2) : l1.min? = l2.min? := by
  cases e1 : l1.min? with
  | none =>
    rw [List.min?_eq_none_iff] at e1
    subst e1
    have h2 : l2 = [] := h.symm.eq_nil
    rw [h2]
    rfl
  | some a =>
    have anti : Std.Antisymm (fun x1 x2 : ℤ => x1 ≤ x2) :=
      ⟨fun h1 h2 => le_antisymm h1 h2⟩
    have iff1 := @List.min?_eq_some_iff ℤ a _ _ anti (fun b => le_refl b)
      (fun b c => min_choice b c) (fun b c d => le_min_iff) l1
    have iff2 := @List.min?_eq_some_iff ℤ a _ _ anti (fun b => le_refl b)
      (fun b c => min_choice b c) (fun b c d => le_min_iff) l2
    obtain ⟨ha, hb⟩ := iff1.mp e1
    symm
    rw [iff2]
    exact ⟨h.mem_iff.mp ha, fun b hb2 => hb b (h.mem_iff.mpr hb2)⟩

theorem tr_min_time_perm {d1 d2 : List (ℤ × ℚ)} (h : d1.Perm d2) :
    tr_min_time d1 = tr_min_time d2 := by
  unfold tr_min_time
  rw [min?_perm_int (h.map Prod.fst)]

theorem tr_normalized_perm {d1 d2 : List (ℤ × ℚ)} (h : d1.Perm d2) :
    (tr_normalized d1).Perm (tr_normalized d2) := by
  unfold tr_normalized
  rw [tr_min_time_perm h]
  exact h.map _

theorem tr_sum_x_perm {d1 d2 : List (ℤ × ℚ)} (h : d1.Perm d2) :
    tr_sum_x d1 = tr_sum_x d2 :=
  ((tr_normalized_perm h).map _).sum_eq

theorem tr_sum_y_perm {d1 d2 : List (ℤ × ℚ)} (h : d1.Perm d2) :
    tr_sum_y d1 = tr_sum_y d2 :=
  ((tr_normalized_perm h).map _).sum_eq

theorem tr_sum_xy_perm {d1 d2 : List (ℤ × ℚ)} (h : d1.Perm d2) :
    tr_sum_xy d1 = tr_sum_xy d2 :=
  ((tr_normalized_perm h).map _).sum_eq

theorem tr_sum_x2_perm {d1 d2 : List (ℤ × ℚ)} (h : d1.Perm d2) :
    tr_sum_x2 d1 = tr_sum_x2 d2 :=
  ((tr_normalized_perm h).map _).sum_eq

theorem tr_n_perm {d1 d2 : List (ℤ × ℚ)} (h : d1.Perm d2) :
    tr_n d1 = tr_n d2 := by
  unfold tr_n
  rw [(tr_normalized_perm h).length_eq]

theorem tr_denominator_perm {d1 d2 : List (ℤ × ℚ)} (h : d1.Perm d2) :
    tr_denominator d1 = tr_denominator d2 := by
  unfold tr_denominator
  rw [tr_n_perm h, tr_sum_x2_perm h, tr_sum_x_perm h]

theorem tr_slope_perm {d1 d2 : List (ℤ × ℚ)} (h : d1.Perm d2) :
    tr_slope d1 = tr_slope d2 := by
  unfold tr_slope
  rw [tr_n_perm h, tr_sum_xy_perm h, tr_sum_x_perm h, tr_sum_y_perm h,
    tr_denominator_perm h]

theorem tr_intercept_perm {d1 d2 : List (ℤ × ℚ)} (h : d1.Perm d2) :
    tr_intercept d1 = tr_intercept d2 := by
  unfold tr_intercept
  rw [tr_sum_y_perm h, tr_slope_perm h, tr_sum_x_perm h, tr_n_perm h]

theorem tr_ss_tot_perm {d1 d2 : List (ℤ × ℚ)} (h : d1.Perm d2) :
    tr_ss_tot d1 = tr_ss_tot d2 := by
  unfold tr_ss_tot
  rw [tr_sum_y_perm h, tr_n_perm h]
  exact ((tr_normalized_perm h).map _).sum_eq

theorem tr_ss_res_perm {d1 d2 : List (ℤ × ℚ)} (h : d1.Perm d2) :
    tr_ss_res d1 = tr_ss_res d2 := by
  unfold tr_ss_res
  rw [tr_slope_perm h, tr_intercept_perm h]
  exact ((tr_normalized_perm h).map _).sum_eq

theorem tr_r_squared_perm {d1 d2 : List (ℤ × ℚ)} (h : d1.Perm d2) :
    tr_r_squared d1 = tr_r_squared d2 := by
  unfold tr_r_squared
  rw [tr_ss_tot_perm h, tr_ss_res_perm h]

theorem tr_direction_perm {d1 d2 : List (ℤ × ℚ)} (h : d1.Perm d2) :
    tr_direction d1 = tr_direction d2 := by
  unfold tr_direction
  rw [tr_slope_perm h]

theorem tr_strength_perm {d1 d2 : List (ℤ × ℚ)} (h : d1.Perm d2) :
    tr_strength d1 = tr_strength d2 := by
  unfold tr_strength
  rw [tr_r_squared_perm h]

/-- C8 (amended): `calculate_trend` returns the same slope, intercept, R²,
direction and strength on any permutation of its input (all the fitted
sums are permutation-invariant and the rebasing subtracts the global
minimum timestamp); only `predicted_values` depends on input order.  When
the regression branch is taken (at least 2 points and a non-degenerate
denominator) its i-th entry is `slope·(tᵢ − min_t) + intercept` for the
i-th input point; in the two fallback branches `predicted_values` is the
empty list. -/
theorem calculate_trend_perm (d1 d2 : List (ℤ × ℚ)) (h : d1.Perm d2) :
    ((calculate_trend d1).slope = (calculate_trend d2).slope ∧
     (calculate_trend d1).intercept = (calculate_trend d2).intercept ∧
     (calculate_trend d1).r_squared = (calculate_trend d2).r_squared ∧
     (calculate_trend d1).direction = (calculate_trend d2).direction ∧
     (calculate_trend d1).strength = (calculate_trend d2).strength) ∧
    (∀ d : List (ℤ × ℚ), 2 ≤ d.length → ¬ |tr_denominator d| < 1/10 ^ 10 →
      (calculate_trend d).predicted_values =
        d.map (fun p => (calculate_trend d).slope * ((p.1 - tr_min_time d : ℤ) : ℚ) +
          (calculate_trend d).intercept)) ∧
    (∀ d : List (ℤ × ℚ), d.length < 2 ∨ |tr_denominator d| < 1/10 ^ 10 →
      (calculate_trend d).predicted_values = []) := by
  refine ⟨?_, ?_, ?_⟩
  · have hlen : d1.length = d2.length := h.length_eq
    unfold calculate_trend
    rw [hlen, tr_denominator_perm h, tr_sum_y_perm h, tr_n_perm h, tr_slope_perm h,
      tr_intercept_perm h, tr_r_squared_perm h, tr_direction_perm h, tr_strength_perm h]
    split
    · exact ⟨rfl, rfl, rfl, rfl, rfl⟩
    · split
      · exact ⟨rfl, rfl, rfl, rfl, rfl⟩
      · exact ⟨rfl, rfl, rfl, rfl, rfl⟩
  · intro d hd hden
    unfold calculate_trend
    rw [if_neg (by omega), if_neg hden]
    show tr_predicted_values d = _
    unfold tr_predicted_values tr_normalized
    rw [List.map_map]
    have hslope : (if d.length < 2 then
        (⟨0, 0, 0, "stable", "none", []⟩ : TrendResult)
      else if |tr_denominator d| < 1/10 ^ 10 then
        ⟨0, tr_sum_y d / tr_n d, 0, "stable", "none", []⟩
      else ⟨tr_slope d, tr_intercept d, tr_r_squared d, tr_direction d,
        tr_strength d, tr_predicted_values d⟩).slope = tr_slope d := by
      rw [if_neg (by omega), if_neg hden]
    rfl
  · intro d hd
    unfold calculate_trend
    rcases Nat.lt_or_ge d.length 2 with hlt | hge
    · rw [if_pos hlt]
    · have hden : |tr_denominator d| < 1/10 ^ 10 := by
        rcases hd with h1 | h2
        · omega
        · exact h2
      rw [if_neg (by omega), if_pos hden]

/-- Witness for the amended C8 at a concrete two-point series and its swap. -/
theorem calculate_trend_perm_witness :
    ((calculate_trend [((0 : ℤ), (1 : ℚ)), (1, 2)]).slope =
       (calculate_trend [((1 : ℤ), (2 : ℚ)), (0, 1)]).slope ∧
     (calculate_trend [((0 : ℤ), (1 : ℚ)), (1, 2)]).intercept =
       (calculate_trend [((1 : ℤ), (2 : ℚ)), (0, 1)]).intercept ∧
     (calculate_trend [((0 : ℤ), (1 : ℚ)), (1, 2)]).r_squared =
       (calculate_trend [((1 : ℤ), (2 : ℚ)), (0, 1)]).r_squared ∧
     (calculate_trend [((0 : ℤ), (1 : ℚ)), (1, 2)]).direction =
       (calculate_trend [((1 : ℤ), (2 : ℚ)), (0, 1)]).direction ∧
     (calculate_trend [((0 : ℤ), (1 : ℚ)), (1, 2)]).strength =
       (calculate_trend [((1 : ℤ), (2 : ℚ)), (0, 1)]).strength) ∧
    (∀ d : List (ℤ × ℚ), 2 ≤ d.length → ¬ |tr_denominator d| < 1/10 ^ 10 →
      (calculate_trend d).predicted_values =
        d.map (fun p => (calculate_trend d).slope * ((p.1 - tr_min_time d : ℤ) : ℚ) +
          (calculate_trend d).intercept)) ∧
    (∀ d : List (ℤ × ℚ), d.length < 2 ∨ |tr_denominator d| < 1/10 ^ 10 →
      (calculate_trend d).predicted_values = []) :=
  calculate_trend_perm [((0 : ℤ), (1 : ℚ)), (1, 2)] [((1 : ℤ), (2 : ℚ)), (0, 1)]
    (List.Perm.swap _ _ _)

/-- Counterexample to C8 as stated: on the single-point series `[(0, 5)]`
the fitted-value list is empty, while the claimed per-input-point formula
would give one entry per input point. -/
theorem calculate_trend_predicted_values_fallback_empty :
    (calculate_trend [((0 : ℤ), (5 : ℚ))]).predicted_values ≠
      [((0 : ℤ), (5 : ℚ))].map
        (fun p => (calculate_trend [((0 : ℤ), (5 : ℚ))]).slope *
          ((p.1 - tr_min_time [((0 : ℤ), (5 : ℚ))] : ℤ) : ℚ) +
          (calculate_trend [((0 : ℤ), (5 : ℚ))]).intercept) := by
  have hl : (calculate_trend [((0 : ℤ), (5 : ℚ))]).predicted_values = [] := by
    unfold calculate_trend
    rw [if_pos (by norm_num)]
  rw [hl, List.map_cons, List.map_nil]
  simp
